import Mathlib

/-!
# The `helm push` command (`cmd/helm/push.go`)

A shallow embedding of `newPushCmd`: the flag definitions that fill
`registryPushOptions.cfg`, the positional-argument validator, the shell
completion function `ValidArgsFunction` and the run step `RunE`.

Effects are made explicit: the run step returns the final value of the shared
`action.Configuration`, the ordered trace of the calls and writes it performed,
and how it ended (returned a Go `error`, returned `nil`, or panicked on an
out-of-range index).

Collaborators whose bodies live in other packages (`o.cfg.NewClient`,
`client.Run`, `pusher.All(settings)`, `noMoreArgsComp`) are parameters of the
embedding; the places where one of them is given a body from the written
specification are marked as such.
-/

namespace Helm

/-! ## Go errors -/

/-- Modelled from the spec: the error taxonomy of §7 (the Go values that carry
these kinds are produced by packages outside `cmd/helm/push.go`); `Other` stands
for any error outside the taxonomy. -/
inductive ErrorKind where
  | ProviderNotFound
  | ConflictingTLSOptions
  | IncompleteTLSMaterial
  | ClientConstructionError
  | ArtifactResolutionError
  | TransportError
  | Other
deriving DecidableEq, Repr

/-- A Go `error` value: either a plain error carrying its kind and message, or
the `*fmt.wrapError` built by `fmt.Errorf` with a `%w` verb, which stores the
formatted message and the wrapped error. -/
inductive GoError where
  | errorString (kind : ErrorKind) (s : String)
  | wrapError (msg : String) (err : GoError)
deriving DecidableEq, Repr

/-- The method `Error()`: the message of an error. -/
def GoError.Error : GoError → String
  | .errorString _ s => s
  | .wrapError msg _ => msg

/-- The method `Unwrap()` as used by `errors.Unwrap`: the wrapped error, if any. -/
def GoError.Unwrap : GoError → Option GoError
  | .errorString _ _ => none
  | .wrapError _ err => some err

/-- The kind found at the bottom of the wrap chain (what `errors.Is`/`errors.As`
would match against). -/
def GoError.kind : GoError → ErrorKind
  | .errorString k _ => k
  | .wrapError _ err => err.kind

/-- The call `fmt.Errorf(format ++ "%w", err)` for a format that is literal text
followed by a single `%w`: the message is the literal followed by `err.Error()`
and the result wraps `err`. -/
def Errorf_w (literal : String) (err : GoError) : GoError :=
  .wrapError (literal ++ err.Error) err

/-! ## Data -/

/-- The struct `action.RegistryConfiguration`, with the fields that `push.go`
reads and binds flags to. -/
structure RegistryConfiguration where
  CertFile : String
  KeyFile : String
  CaFile : String
  InsecureSkipTLSverify : Bool
  PlainHTTP : Bool
  Username : String
  Password : String
deriving DecidableEq, Repr

/-- The struct `registryPushOptions`. -/
structure registryPushOptions where
  cfg : RegistryConfiguration
deriving DecidableEq, Repr

/-- The registry client returned by `o.cfg.NewClient()`; only its identity
matters to the command. -/
structure RegistryClient where
  descriptor : String
deriving DecidableEq, Repr

/-- The struct `action.Configuration`, reduced to the one field that `push.go`
touches (`cfg.RegistryClient`, `nil` when unset). -/
structure Configuration where
  RegistryClient : Option RegistryClient
deriving DecidableEq, Repr

/-- The process-wide `settings` value handed to `pusher.All` and to the push
action. -/
structure EnvSettings where
  name : String
deriving DecidableEq, Repr

/-- The `io.Writer` handed to `newPushCmd` as `out`. -/
structure Writer where
  name : String
deriving DecidableEq, Repr

/-- The option values passed to `action.NewPushWithOpts` in `RunE`, recorded as
data in call order. -/
inductive PushOpt where
  | WithPushConfig (cfg : Configuration)
  | WithTLSClientConfig (certFile keyFile caFile : String)
  | WithInsecureSkipTLSVerify (insecureSkipTLSVerify : Bool)
  | WithPlainHTTP (plainHTTP : Bool)
  | WithPushOptWriter (out : Writer)
deriving DecidableEq, Repr

/-- The push action `*action.Push` as the command builds it: the options given
to `action.NewPushWithOpts` and the `Settings` field assigned afterwards. -/
structure Push where
  opts : List PushOpt
  Settings : Option EnvSettings
deriving DecidableEq, Repr

/-- The call `action.NewPushWithOpts(opts...)`. -/
def NewPushWithOpts (opts : List PushOpt) : Push :=
  { opts := opts, Settings := none }

/-- An effect performed inside the push action while it runs: bytes sent to a
remote registry, or text the action writes to the writer it was given. -/
inductive Effect where
  | transmit (destination : String)
  | actionWrite (text : String)
deriving DecidableEq, Repr

/-- What one call of `client.Run(chartRef, remote)` yields: the Go pair
`(string, error)` and the effects performed during the call. -/
structure RunResult where
  output : String
  err : Option GoError
  effects : List Effect
deriving DecidableEq, Repr

/-- The collaborators of `newPushCmd` defined outside `cmd/helm/push.go`. -/
structure Env where
  NewClient : RegistryConfiguration → Except GoError RegistryClient
  Run : Push → String → String → RunResult
  settings : EnvSettings

/-- One observable step of the run step, in program order. -/
inductive Event where
  | NewClientCalled (cfg : RegistryConfiguration)
  | RegistryClientAssigned (c : RegistryClient)
  | RunCalled (client : Push) (chartRef remote : String)
  | ActionEffect (e : Effect)
  | Fprint (out : Writer) (text : String)
deriving DecidableEq, Repr

/-- How a Go function of result type `error` ends. -/
inductive Outcome where
  | returned (err : Option GoError)
  | panicked
deriving DecidableEq, Repr

/-- The result of executing the command: final shared configuration, trace and
outcome. -/
structure Exec where
  cfg : Configuration
  trace : List Event
  outcome : Outcome
deriving DecidableEq, Repr

/-! ## The run step -/

/-- The closure `RunE` of `newPushCmd` (push.go, lines 66-88). -/
def RunE (env : Env) (o : registryPushOptions) (cfg : Configuration) (out : Writer)
    (args : List String) : Exec :=
  match env.NewClient o.cfg with
  | .error err =>
    { cfg := cfg
      trace := [.NewClientCalled o.cfg]
      outcome := .returned (some (Errorf_w "missing registry client: " err)) }
  | .ok registryClient =>
    let cfg1 : Configuration := { cfg with RegistryClient := some registryClient }
    let t1 : List Event := [.NewClientCalled o.cfg, .RegistryClientAssigned registryClient]
    match args[0]? with
    | none => { cfg := cfg1, trace := t1, outcome := .panicked }
    | some chartRef =>
      match args[1]? with
      | none => { cfg := cfg1, trace := t1, outcome := .panicked }
      | some remote =>
        let client := NewPushWithOpts
          [ .WithPushConfig cfg1,
            .WithTLSClientConfig o.cfg.CertFile o.cfg.KeyFile o.cfg.CaFile,
            .WithInsecureSkipTLSVerify o.cfg.InsecureSkipTLSverify,
            .WithPlainHTTP o.cfg.PlainHTTP,
            .WithPushOptWriter out ]
        let client : Push := { client with Settings := some env.settings }
        let r := env.Run client chartRef remote
        let t2 : List Event :=
          t1 ++ [.RunCalled client chartRef remote] ++ r.effects.map .ActionEffect
        match r.err with
        | some err => { cfg := cfg1, trace := t2, outcome := .returned (some err) }
        | none =>
          { cfg := cfg1, trace := t2 ++ [.Fprint out r.output], outcome := .returned none }

/-- The push action value that `RunE` builds once the registry client `c` has
been stored in the shared configuration. -/
def builtPush (env : Env) (o : registryPushOptions) (cfg : Configuration) (out : Writer)
    (c : RegistryClient) : Push :=
  { opts :=
      [ .WithPushConfig { cfg with RegistryClient := some c },
        .WithTLSClientConfig o.cfg.CertFile o.cfg.KeyFile o.cfg.CaFile,
        .WithInsecureSkipTLSVerify o.cfg.InsecureSkipTLSverify,
        .WithPlainHTTP o.cfg.PlainHTTP,
        .WithPushOptWriter out ]
    Settings := some env.settings }

/-! ## Observations on a trace -/

/-- The texts the command itself wrote to the writer `out`, in order. -/
def commandWrites (out : Writer) : List Event → List String
  | [] => []
  | .Fprint w text :: rest =>
    if w = out then text :: commandWrites out rest else commandWrites out rest
  | _ :: rest => commandWrites out rest

/-- The invocations of the push action `client.Run`, in order. -/
def runCalls : List Event → List (Push × String × String)
  | [] => []
  | .RunCalled client chartRef remote :: rest => (client, chartRef, remote) :: runCalls rest
  | _ :: rest => runCalls rest

/-- The registry clients assigned to `cfg.RegistryClient`, in order. -/
def assignments : List Event → List RegistryClient
  | [] => []
  | .RegistryClientAssigned c :: rest => c :: assignments rest
  | _ :: rest => assignments rest

/-- The network transmissions that happened during the execution, in order. -/
def transmissions : List Event → List String
  | [] => []
  | .ActionEffect (.transmit d) :: rest => d :: transmissions rest
  | _ :: rest => transmissions rest

/-- The command's own writes to `out` agree with how the execution ended: one
write of the push action's output when it returned no error, none otherwise. -/
def writesAgree (env : Env) (out : Writer) (x : Exec) : Prop :=
  match x.outcome with
  | .returned none =>
    ∃ client chartRef remote,
      runCalls x.trace = [(client, chartRef, remote)] ∧
      (env.Run client chartRef remote).err = none ∧
      commandWrites out x.trace = [(env.Run client chartRef remote).output]
  | .returned (some _) => commandWrites out x.trace = []
  | .panicked => commandWrites out x.trace = []

/-! ## Flags -/

/-- The string fields of `o.cfg` a flag can be bound to (`&o.cfg.CertFile`, ...). -/
inductive StringField where
  | CertFile
  | KeyFile
  | CaFile
  | Username
  | Password
deriving DecidableEq, Repr

/-- The boolean fields of `o.cfg` a flag can be bound to. -/
inductive BoolField where
  | InsecureSkipTLSverify
  | PlainHTTP
deriving DecidableEq, Repr

/-- One flag definition on the command's flag set: `f.StringVar(p, name, value,
usage)` or `f.BoolVar(p, name, value, usage)`. -/
inductive FlagDef where
  | StringVar (p : StringField) (name : String) (value : String) (usage : String)
  | BoolVar (p : BoolField) (name : String) (value : Bool) (usage : String)
deriving DecidableEq, Repr

/-- The name under which a flag is registered. -/
def FlagDef.name : FlagDef → String
  | .StringVar _ name _ _ => name
  | .BoolVar _ name _ _ => name

/-- The seven flag definitions of `newPushCmd` (push.go, lines 92-98), in source
order. -/
def pushFlags : List FlagDef :=
  [ .StringVar .CertFile "cert-file" "" "identify registry client using this SSL certificate file",
    .StringVar .KeyFile "key-file" "" "identify registry client using this SSL key file",
    .StringVar .CaFile "ca-file" "" "verify certificates of HTTPS-enabled servers using this CA bundle",
    .BoolVar .InsecureSkipTLSverify "insecure-skip-tls-verify" false "skip tls certificate checks for the chart upload",
    .BoolVar .PlainHTTP "plain-http" false "use insecure HTTP connections for the chart upload",
    .StringVar .Username "username" "" "chart repository username where to locate the requested chart",
    .StringVar .Password "password" "" "chart repository password where to locate the requested chart" ]

/-- The Go zero value `registryPushOptions{}` created by `o := &registryPushOptions{}`. -/
def zeroOptions : registryPushOptions :=
  { cfg :=
      { CertFile := "", KeyFile := "", CaFile := "", InsecureSkipTLSverify := false,
        PlainHTTP := false, Username := "", Password := "" } }

/-- Store `v` through a pointer to a string field of `o.cfg`. -/
def setString (p : StringField) (v : String) (o : registryPushOptions) : registryPushOptions :=
  match p with
  | .CertFile => { o with cfg := { o.cfg with CertFile := v } }
  | .KeyFile => { o with cfg := { o.cfg with KeyFile := v } }
  | .CaFile => { o with cfg := { o.cfg with CaFile := v } }
  | .Username => { o with cfg := { o.cfg with Username := v } }
  | .Password => { o with cfg := { o.cfg with Password := v } }

/-- Store `v` through a pointer to a boolean field of `o.cfg`. -/
def setBool (p : BoolField) (v : Bool) (o : registryPushOptions) : registryPushOptions :=
  match p with
  | .InsecureSkipTLSverify => { o with cfg := { o.cfg with InsecureSkipTLSverify := v } }
  | .PlainHTTP => { o with cfg := { o.cfg with PlainHTTP := v } }

/-- Registering a flag stores its default value in the bound variable. -/
def define (o : registryPushOptions) : FlagDef → registryPushOptions
  | .StringVar p _ value _ => setString p value o
  | .BoolVar p _ value _ => setBool p value o

/-- The options value once `newPushCmd` has registered all its flags and before
any command-line option is parsed. -/
def newPushOptions : registryPushOptions :=
  pushFlags.foldl define zeroOptions

/-- The Go function `strconv.ParseBool`, which the flag library uses to read the
value of a boolean flag. -/
def ParseBool (s : String) : Option Bool :=
  if s = "1" ∨ s = "t" ∨ s = "T" ∨ s = "TRUE" ∨ s = "true" ∨ s = "True" then some true
  else if s = "0" ∨ s = "f" ∨ s = "F" ∨ s = "FALSE" ∨ s = "false" ∨ s = "False" then some false
  else none

/-- Supplying one option `--name=value`: the flag registered under `name` stores
the value in its bound variable; an unknown name or an unreadable boolean is an
error. -/
def setFlag (flags : List FlagDef) (o : registryPushOptions) (name value : String) :
    Except String registryPushOptions :=
  match flags.find? (fun d => d.name == name) with
  | none => .error ("unknown flag: --" ++ name)
  | some (.StringVar p _ _ _) => .ok (setString p value o)
  | some (.BoolVar p _ _ _) =>
    match ParseBool value with
    | some b => .ok (setBool p b o)
    | none => .error ("invalid argument for --" ++ name)

/-- Supplying a sequence of options, left to right, stopping at the first error. -/
def parseFlags (flags : List FlagDef) (o : registryPushOptions) :
    List (String × String) → Except String registryPushOptions
  | [] => .ok o
  | (name, value) :: rest =>
    match setFlag flags o name value with
    | .error e => .error e
    | .ok o1 => parseFlags flags o1 rest

/-- The registry configuration consumed by the push command when the options
`supplied` are given on the command line. -/
def resolveConfiguration (supplied : List (String × String)) :
    Except String RegistryConfiguration :=
  match parseFlags pushFlags newPushOptions supplied with
  | .error e => .error e
  | .ok o => .ok o.cfg

/-! ## Positional arguments and command execution -/

/-- Modelled from the spec: the body of `require.MinimumNArgs` (package
`cmd/helm/require`) is not part of `push.go`; following §4.3 ("at least two
positional arguments were supplied") and the validator's name, `MinimumNArgs n`
rejects an argument list exactly when it has fewer than `n` entries. The error it
reports is a parameter. -/
def MinimumNArgs (n : Nat) (usageError : GoError) (args : List String) : Option GoError :=
  if args.length < n then some usageError else none

/-- The field `Args` of the push command: `require.MinimumNArgs(2)` (push.go,
line 48). -/
def pushArgs (usageError : GoError) (args : List String) : Option GoError :=
  MinimumNArgs 2 usageError args

/-- Executing the command on its positional arguments: the command framework
first applies the `Args` validator and returns its error without calling `RunE`;
otherwise it calls `RunE`. -/
def execute (env : Env) (usageError : GoError) (o : registryPushOptions) (cfg : Configuration)
    (out : Writer) (args : List String) : Exec :=
  match pushArgs usageError args with
  | some err => { cfg := cfg, trace := [], outcome := .returned (some err) }
  | none => RunE env o cfg out args

/-! ## Shell completion -/

/-- A transport provider `pusher.Provider`: the schemes it declares and its push
capability (artifacts, push action carrying the client, destination). -/
structure Provider where
  name : String
  Schemes : List String
  push : List String → Push → String → RunResult

/-- The completion directive `cobra.ShellCompDirective`, a bit field. -/
abbrev ShellCompDirective := Nat

/-- The constant `cobra.ShellCompDirectiveDefault`. -/
def ShellCompDirectiveDefault : ShellCompDirective := 0

/-- The constant `cobra.ShellCompDirectiveNoSpace` (`1 << 1`). -/
def ShellCompDirectiveNoSpace : ShellCompDirective := 2

/-- The constant `cobra.ShellCompDirectiveNoFileComp` (`1 << 2`). -/
def ShellCompDirectiveNoFileComp : ShellCompDirective := 4

/-- The inner loop of the completion function: `for _, scheme := range p.Schemes
{ comps = append(comps, fmt.Sprintf("%s://", scheme)) }`. -/
def appendSchemes (comps : List String) (schemes : List String) : List String :=
  schemes.foldl (fun comps scheme => comps ++ [scheme ++ "://"]) comps

/-- The outer loop of the completion function: `for _, p := range providers`. -/
def schemeCompletions (providers : List Provider) : List String :=
  providers.foldl (fun comps p => appendSchemes comps p.Schemes) []

/-- The closure `ValidArgsFunction` of `newPushCmd` (push.go, lines 49-65); `All`
is `pusher.All` and `noMoreArgsComp` the value returned by the helper of that
name. -/
def ValidArgsFunction (All : EnvSettings → List Provider) (settings : EnvSettings)
    (noMoreArgsComp : List String × ShellCompDirective) (args : List String) :
    List String × ShellCompDirective :=
  if args.length = 0 then
    ([], ShellCompDirectiveDefault)
  else if args.length = 1 then
    let providers := All settings
    (schemeCompletions providers, ShellCompDirectiveNoFileComp ||| ShellCompDirectiveNoSpace)
  else
    noMoreArgsComp

/-! ## Collaborators given a body from the written specification -/

/-- Modelled from the spec: the Client Factory `buildClient` of §4.2, standing for
`action.RegistryConfiguration.NewClient`, whose body is not part of `push.go`.
Validation in the order of §4.2: (1) `plainHTTP` with any of
certFile/keyFile/caFile non-empty fails with `ConflictingTLSOptions`; (2) exactly
one of certFile/keyFile set fails with `IncompleteTLSMaterial`; (3) the remaining
construction, which may fail with a `ClientConstructionError`, is the parameter
`load`. -/
def buildClient (load : RegistryConfiguration → Except GoError RegistryClient)
    (config : RegistryConfiguration) : Except GoError RegistryClient :=
  if config.PlainHTTP = true ∧
      (config.CertFile ≠ "" ∨ config.KeyFile ≠ "" ∨ config.CaFile ≠ "") then
    .error (.errorString .ConflictingTLSOptions "plain HTTP cannot be combined with TLS files")
  else if (config.CertFile ≠ "" ∧ config.KeyFile = "") ∨
      (config.CertFile = "" ∧ config.KeyFile ≠ "") then
    .error (.errorString .IncompleteTLSMaterial "certificate and key must be set together")
  else
    load config

/-- The characters preceding the first occurrence of `://`, when there is one. -/
def schemeChars : List Char → Option (List Char)
  | [] => none
  | c :: rest =>
    if (c :: rest).take 3 = [':', '/', '/'] then some []
    else (schemeChars rest).map (fun cs => c :: cs)

/-- Modelled from the spec: the scheme of a remote reference, "substring preceding
`://`" (§4.3 step 1); `none` when the reference contains no `://`. -/
def schemeOf (remoteRef : String) : Option String :=
  (schemeChars remoteRef.toList).map String.mk

/-- Modelled from the spec: `lookupByScheme` of §4.1, the first provider in
registration order that declares the scheme, failing with `ProviderNotFound` when
none does. -/
def lookupByScheme (providers : List Provider) (scheme : String) : Except GoError Provider :=
  match providers.find? (fun p => p.Schemes.contains scheme) with
  | some p => .ok p
  | none => .error (.errorString .ProviderNotFound ("scheme not supported: " ++ scheme))

/-- Modelled from the spec: the Push Orchestrator `run` of §4.3, standing for
`(*action.Push).Run`, whose body is not part of `push.go`. Step 1 extracts the
scheme and selects the provider (`ProviderNotFound` when absent or unrecognised);
step 3 resolves the source reference to the artifacts to upload (parameter
`resolve`); steps 4-5 invoke the provider's push capability, which performs the
network I/O and yields the result summary. Step 2 (building the client) is done by
the command before it calls the action; the client travels inside `client`. -/
def orchestratorRun (providers : List Provider)
    (resolve : String → Except GoError (List String))
    (client : Push) (sourceRef remoteRef : String) : RunResult :=
  match schemeOf remoteRef with
  | none =>
    { output := "", effects := []
      err := some (.errorString .ProviderNotFound ("scheme missing from remote: " ++ remoteRef)) }
  | some scheme =>
    match lookupByScheme providers scheme with
    | .error e => { output := "", err := some e, effects := [] }
    | .ok p =>
      match resolve sourceRef with
      | .error e => { output := "", err := some e, effects := [] }
      | .ok artifacts => p.push artifacts client remoteRef

/-! ## Concrete inputs used to instantiate the theorems -/

/-- A sample error value returned by a failing Client Factory. -/
def sampleClientError : GoError :=
  .errorString .ClientConstructionError "open tls.crt: no such file or directory"

/-- A sample registry client. -/
def sampleClient : RegistryClient := { descriptor := "registry-client" }

/-- A sample writer standing for the caller's output stream. -/
def stdout : Writer := { name := "stdout" }

/-- A sample transport error. -/
def sampleTransportError : GoError :=
  .errorString .TransportError "unexpected status from registry: 401 Unauthorized"

/-- A push action that uploads to the destination and reports a summary, except
for the destination `oci://down`, for which it fails after trying the network. -/
def sampleRun (_ : Push) (chartRef remote : String) : RunResult :=
  if remote = "oci://down" then
    { output := "", err := some sampleTransportError, effects := [.transmit remote] }
  else
    { output := "Pushed: " ++ remote ++ "/" ++ chartRef, err := none,
      effects := [.transmit remote] }

/-- An environment whose Client Factory always fails with `sampleClientError`. -/
def failingEnv : Env :=
  { NewClient := fun _ => .error sampleClientError
    Run := sampleRun
    settings := { name := "settings" } }

/-- An environment whose Client Factory always succeeds with `sampleClient`. -/
def workingEnv : Env :=
  { NewClient := fun _ => .ok sampleClient
    Run := sampleRun
    settings := { name := "settings" } }

/-- A sample error reported by the argument validator. -/
def sampleUsageError : GoError :=
  .errorString .Other "\"helm push\" requires at least 2 arguments"

/-- A provider for the scheme `oci`. -/
def ociProvider : Provider :=
  { name := "oci"
    Schemes := ["oci"]
    push := fun artifacts _ destination =>
      { output := "Pushed: " ++ destination, err := none,
        effects := artifacts.map (fun _ => .transmit destination) } }

/-- A resolver that finds the chart and no provenance file. -/
def sampleResolve (sourceRef : String) : Except GoError (List String) :=
  .ok [sourceRef]

/-- Options with `plain-http` set together with a certificate file. -/
def conflictingOptions : registryPushOptions :=
  { cfg := { zeroOptions.cfg with PlainHTTP := true, CertFile := "tls.crt" } }

/-- The failing environment with the orchestrator of the specification as push
action. -/
def failingSpecEnv : Env :=
  { NewClient := fun _ => .error sampleClientError
    Run := orchestratorRun [ociProvider] sampleResolve
    settings := { name := "settings" } }

/-! ## Lemmas on traces -/

/-- The command's writes of a concatenated trace are the concatenation of the writes. -/
theorem commandWrites_append (out : Writer) (xs ys : List Event) :
    commandWrites out (xs ++ ys) = commandWrites out xs ++ commandWrites out ys := by
  induction xs with
  | nil => rfl
  | cons x xs ih =>
    cases x <;> simp [commandWrites, ih]
    split <;> simp

/-- The push-action calls of a concatenated trace. -/
theorem runCalls_append (xs ys : List Event) :
    runCalls (xs ++ ys) = runCalls xs ++ runCalls ys := by
  induction xs with
  | nil => rfl
  | cons x xs ih => cases x <;> simp [runCalls, ih]

/-- The assignments of a concatenated trace. -/
theorem assignments_append (xs ys : List Event) :
    assignments (xs ++ ys) = assignments xs ++ assignments ys := by
  induction xs with
  | nil => rfl
  | cons x xs ih => cases x <;> simp [assignments, ih]

/-- Effects of the push action are not writes of the command. -/
theorem commandWrites_effects (out : Writer) (es : List Effect) :
    commandWrites out (es.map .ActionEffect) = [] := by
  induction es with
  | nil => rfl
  | cons e es ih => simpa [commandWrites] using ih

/-- Effects of the push action are not calls of the push action. -/
theorem runCalls_effects (es : List Effect) : runCalls (es.map .ActionEffect) = [] := by
  induction es with
  | nil => rfl
  | cons e es ih => simpa [runCalls] using ih

/-- Effects of the push action are not assignments to the shared configuration. -/
theorem assignments_effects (es : List Effect) : assignments (es.map .ActionEffect) = [] := by
  induction es with
  | nil => rfl
  | cons e es ih => simpa [assignments] using ih

/-! ## The run step, case by case -/

/-- The run step when the Client Factory fails. -/
theorem RunE_of_error (env : Env) (o : registryPushOptions) (cfg : Configuration)
    (out : Writer) (args : List String) (e : GoError) (h : env.NewClient o.cfg = .error e) :
    RunE env o cfg out args =
      { cfg := cfg, trace := [.NewClientCalled o.cfg],
        outcome := .returned (some (Errorf_w "missing registry client: " e)) } := by
  simp [RunE, h]

/-- The run step when the client is built and two arguments are present. -/
theorem RunE_of_ok (env : Env) (o : registryPushOptions) (cfg : Configuration)
    (out : Writer) (chartRef remote : String) (rest : List String) (c : RegistryClient)
    (h : env.NewClient o.cfg = .ok c) :
    RunE env o cfg out (chartRef :: remote :: rest) =
      { cfg := { cfg with RegistryClient := some c }
        trace :=
          [.NewClientCalled o.cfg, .RegistryClientAssigned c,
            .RunCalled (builtPush env o cfg out c) chartRef remote]
          ++ (env.Run (builtPush env o cfg out c) chartRef remote).effects.map .ActionEffect
          ++ (match (env.Run (builtPush env o cfg out c) chartRef remote).err with
              | some _ => []
              | none => [.Fprint out (env.Run (builtPush env o cfg out c) chartRef remote).output])
        outcome := .returned (env.Run (builtPush env o cfg out c) chartRef remote).err } := by
  simp only [RunE, h, NewPushWithOpts, builtPush, List.getElem?_cons_zero,
    List.getElem?_cons_succ]
  cases hr : (env.Run _ chartRef remote).err <;> simp [hr]

/-- The run step when the client is built and an argument is missing. -/
theorem RunE_of_short (env : Env) (o : registryPushOptions) (cfg : Configuration)
    (out : Writer) (args : List String) (c : RegistryClient)
    (h : env.NewClient o.cfg = .ok c) (hlen : args.length < 2) :
    RunE env o cfg out args =
      { cfg := { cfg with RegistryClient := some c }
        trace := [.NewClientCalled o.cfg, .RegistryClientAssigned c]
        outcome := .panicked } := by
  match args, hlen with
  | [], _ => simp [RunE, h]
  | [a], _ => simp [RunE, h]

/-- A list of length at least two starts with two entries. -/
theorem exists_two_of_length (args : List String) (h : 2 ≤ args.length) :
    ∃ a b rest, args = a :: b :: rest := by
  match args, h with
  | a :: b :: rest, _ => exact ⟨a, b, rest, rfl⟩

/-- The validator accepts exactly the lists of length at least two. -/
theorem pushArgs_none_iff (usageError : GoError) (args : List String) :
    pushArgs usageError args = none ↔ 2 ≤ args.length := by
  unfold pushArgs MinimumNArgs
  split <;> simp <;> omega

/-- An error that wraps `e` is never `e` itself. -/
theorem wrapError_ne_self (e : GoError) (msg : String) : GoError.wrapError msg e ≠ e := by
  induction e generalizing msg with
  | errorString k s => intro h; cases h
  | wrapError m e ih =>
    intro h
    injection h with h1 h2
    exact ih m h2

/-- The writes of the run step agree with its outcome. -/
theorem writesAgree_RunE (env : Env) (o : registryPushOptions) (cfg : Configuration)
    (out : Writer) (args : List String) : writesAgree env out (RunE env o cfg out args) := by
  cases hc : env.NewClient o.cfg with
  | error e => simp [RunE_of_error env o cfg out args e hc, writesAgree, commandWrites]
  | ok c =>
    by_cases hlen : args.length < 2
    · simp [RunE_of_short env o cfg out args c hc hlen, writesAgree, commandWrites]
    · obtain ⟨a, b, rest, rfl⟩ := exists_two_of_length args (by omega)
      rw [RunE_of_ok env o cfg out a b rest c hc]
      cases hr : (env.Run (builtPush env o cfg out c) a b).err with
      | some e =>
        simp [writesAgree, hr, commandWrites_append, commandWrites_effects, commandWrites]
      | none =>
        simp only [writesAgree, hr]
        refine ⟨builtPush env o cfg out c, a, b, ?_, hr, ?_⟩
        · simp [runCalls_append, runCalls_effects, runCalls]
        · simp [commandWrites_append, commandWrites_effects, commandWrites]

/-! ## Flags, completion and modelled collaborators -/

/-- Looking a name up among the seven push flags. -/
theorem setFlag_pushFlags (o : registryPushOptions) (name value : String) :
    setFlag pushFlags o name value =
      if name = "cert-file" then .ok (setString .CertFile value o)
      else if name = "key-file" then .ok (setString .KeyFile value o)
      else if name = "ca-file" then .ok (setString .CaFile value o)
      else if name = "insecure-skip-tls-verify" then
        match ParseBool value with
        | some b => .ok (setBool .InsecureSkipTLSverify b o)
        | none => .error ("invalid argument for --" ++ name)
      else if name = "plain-http" then
        match ParseBool value with
        | some b => .ok (setBool .PlainHTTP b o)
        | none => .error ("invalid argument for --" ++ name)
      else if name = "username" then .ok (setString .Username value o)
      else if name = "password" then .ok (setString .Password value o)
      else .error ("unknown flag: --" ++ name) := by
  unfold setFlag pushFlags
  by_cases h1 : name = "cert-file"
  · subst h1; rfl
  by_cases h2 : name = "key-file"
  · subst h2; rfl
  by_cases h3 : name = "ca-file"
  · subst h3; rfl
  by_cases h4 : name = "insecure-skip-tls-verify"
  · subst h4; rfl
  by_cases h5 : name = "plain-http"
  · subst h5; rfl
  by_cases h6 : name = "username"
  · subst h6; rfl
  by_cases h7 : name = "password"
  · subst h7; rfl
  have e1 : ("cert-file" == name) = false := by simpa using Ne.symm h1
  have e2 : ("key-file" == name) = false := by simpa using Ne.symm h2
  have e3 : ("ca-file" == name) = false := by simpa using Ne.symm h3
  have e4 : ("insecure-skip-tls-verify" == name) = false := by simpa using Ne.symm h4
  have e5 : ("plain-http" == name) = false := by simpa using Ne.symm h5
  have e6 : ("username" == name) = false := by simpa using Ne.symm h6
  have e7 : ("password" == name) = false := by simpa using Ne.symm h7
  simp [List.find?, FlagDef.name, e1, e2, e3, e4, e5, e6, e7, h1, h2, h3, h4, h5, h6, h7]

/-- Registering the seven flags leaves the zero value: every default is the zero value of its type. -/
theorem newPushOptions_eq : newPushOptions = zeroOptions := by decide

/-- The inner completion loop appends the mapped schemes. -/
theorem appendSchemes_eq (comps schemes : List String) :
    appendSchemes comps schemes = comps ++ schemes.map (fun scheme => scheme ++ "://") := by
  unfold appendSchemes
  induction schemes generalizing comps with
  | nil => simp
  | cons x xs ih => simp [List.foldl_cons, ih]

/-- The outer completion loop appends the mapped schemes of every provider in order. -/
theorem schemeCompletions_from (acc : List String) (providers : List Provider) :
    providers.foldl (fun comps p => appendSchemes comps p.Schemes) acc =
      acc ++ (providers.map
        (fun p => p.Schemes.map (fun scheme => scheme ++ "://"))).flatten := by
  induction providers generalizing acc with
  | nil => simp
  | cons p ps ih =>
    simp only [List.foldl_cons, List.map_cons, List.flatten_cons]
    rw [ih, appendSchemes_eq, List.append_assoc]

/-- The first validation of the Client Factory. -/
theorem buildClient_conflict (load : RegistryConfiguration → Except GoError RegistryClient)
    (config : RegistryConfiguration) (h1 : config.PlainHTTP = true)
    (h2 : config.CertFile ≠ "" ∨ config.KeyFile ≠ "" ∨ config.CaFile ≠ "") :
    buildClient load config =
      .error (.errorString .ConflictingTLSOptions
        "plain HTTP cannot be combined with TLS files") := by
  unfold buildClient
  rw [if_pos ⟨h1, h2⟩]

/-- The orchestrator fails at step 1, without effects, on a remote reference whose scheme is absent or declared by no provider. -/
theorem orchestratorRun_unknown_scheme (providers : List Provider)
    (resolve : String → Except GoError (List String)) (client : Push)
    (sourceRef remoteRef : String)
    (h : ∀ scheme, schemeOf remoteRef = some scheme → ∀ p ∈ providers, scheme ∉ p.Schemes) :
    ∃ e, orchestratorRun providers resolve client sourceRef remoteRef =
        { output := "", err := some e, effects := [] } ∧ e.kind = .ProviderNotFound := by
  unfold orchestratorRun
  cases hs : schemeOf remoteRef with
  | none => exact ⟨_, rfl, rfl⟩
  | some scheme =>
    have hf : providers.find? (fun p => p.Schemes.contains scheme) = none := by
      rw [List.find?_eq_none]
      intro p hp
      simpa using h scheme hs p hp
    simp only [lookupByScheme, hf]
    exact ⟨_, rfl, rfl⟩

/-! ## The claims -/

/-- C1 (as stated, it fails): with a Client Factory failing with the error
`sampleClientError`, the run step does not return that error itself but a new
error value whose message is different. -/
theorem client_error_not_returned_unchanged :
    failingEnv.NewClient zeroOptions.cfg = .error sampleClientError ∧
    (RunE failingEnv zeroOptions { RegistryClient := none } stdout
        ["mychart-1.2.0.tgz", "oci://registry.example.com/charts"]).outcome =
      .returned (some (.wrapError
        "missing registry client: open tls.crt: no such file or directory"
        sampleClientError)) ∧
    (RunE failingEnv zeroOptions { RegistryClient := none } stdout
        ["mychart-1.2.0.tgz", "oci://registry.example.com/charts"]).outcome ≠
      .returned (some sampleClientError) ∧
    (GoError.wrapError "missing registry client: open tls.crt: no such file or directory"
        sampleClientError).Error ≠ sampleClientError.Error := by
  refine ⟨rfl, by decide, by decide, by decide⟩

/-- C1 (amended): whenever the Client Factory fails with an error `e`, the run
step returns an error that wraps `e`: its message is `missing registry client: `
followed by the message of `e`, unwrapping it yields `e`, it has the kind of `e`,
and it is a value different from `e`. -/
theorem client_error_is_wrapped (env : Env) (o : registryPushOptions) (cfg : Configuration)
    (out : Writer) (args : List String) (e : GoError) (h : env.NewClient o.cfg = .error e) :
    ∃ err, (RunE env o cfg out args).outcome = .returned (some err) ∧
      err.Error = "missing registry client: " ++ e.Error ∧
      err.Unwrap = some e ∧ err.kind = e.kind ∧ err ≠ e := by
  refine ⟨Errorf_w "missing registry client: " e, ?_, rfl, rfl, rfl, wrapError_ne_self e _⟩
  rw [RunE_of_error env o cfg out args e h]

/-- Witness for C1 (amended) at the failing environment. -/
theorem client_error_is_wrapped_witness :
    ∃ err, (RunE failingEnv zeroOptions { RegistryClient := none } stdout
        ["mychart-1.2.0.tgz", "oci://registry.example.com/charts"]).outcome =
        .returned (some err) ∧
      err.Error = "missing registry client: " ++ sampleClientError.Error ∧
      err.Unwrap = some sampleClientError ∧ err.kind = sampleClientError.kind ∧
      err ≠ sampleClientError :=
  client_error_is_wrapped failingEnv zeroOptions { RegistryClient := none } stdout
    ["mychart-1.2.0.tgz", "oci://registry.example.com/charts"] sampleClientError rfl

/-- C2: if building the registry client fails, then for every argument list the
push action is never invoked, nothing is sent over the network,
`cfg.RegistryClient` is not assigned (the shared configuration is unchanged) and
the command ends by returning an error; this holds for the run step and for the
command executed through its argument validator. -/
theorem run_not_invoked_when_client_fails (env : Env) (usageError : GoError)
    (o : registryPushOptions) (cfg : Configuration) (out : Writer) (args : List String)
    (e : GoError) (h : env.NewClient o.cfg = .error e) :
    (runCalls (RunE env o cfg out args).trace = [] ∧
      transmissions (RunE env o cfg out args).trace = [] ∧
      assignments (RunE env o cfg out args).trace = [] ∧
      (RunE env o cfg out args).cfg = cfg ∧
      ∃ err, (RunE env o cfg out args).outcome = .returned (some err)) ∧
    (runCalls (execute env usageError o cfg out args).trace = [] ∧
      transmissions (execute env usageError o cfg out args).trace = [] ∧
      assignments (execute env usageError o cfg out args).trace = [] ∧
      (execute env usageError o cfg out args).cfg = cfg ∧
      ∃ err, (execute env usageError o cfg out args).outcome = .returned (some err)) := by
  have hR := RunE_of_error env o cfg out args e h
  refine ⟨by simp [hR, runCalls, transmissions, assignments], ?_⟩
  unfold execute
  cases pushArgs usageError args with
  | some err => simp [runCalls, transmissions, assignments]
  | none => simp [hR, runCalls, transmissions, assignments]

/-- Witness for C2 at the failing environment. -/
theorem run_not_invoked_when_client_fails_witness :
    failingEnv.NewClient zeroOptions.cfg = .error sampleClientError ∧
    runCalls (RunE failingEnv zeroOptions { RegistryClient := none } stdout
      ["mychart-1.2.0.tgz", "oci://registry.example.com/charts"]).trace = [] :=
  ⟨rfl, (run_not_invoked_when_client_fails failingEnv sampleUsageError zeroOptions
    { RegistryClient := none } stdout
    ["mychart-1.2.0.tgz", "oci://registry.example.com/charts"] sampleClientError rfl).1.1⟩

/-- C3: for every invocation, what the command itself writes to the
caller-supplied writer is exactly one write of the output returned by the push
action when the command returns no error, and nothing when it returns an error
(from the argument validator, the client construction or the push action) or
does not return. -/
theorem command_writes_only_summary (env : Env) (usageError : GoError)
    (o : registryPushOptions) (cfg : Configuration) (out : Writer) (args : List String) :
    writesAgree env out (RunE env o cfg out args) ∧
    writesAgree env out (execute env usageError o cfg out args) := by
  refine ⟨writesAgree_RunE env o cfg out args, ?_⟩
  unfold execute
  cases pushArgs usageError args with
  | some err => simp [writesAgree, commandWrites]
  | none => exact writesAgree_RunE env o cfg out args

/-- C4: for every invocation accepted by the argument validator, the command
returns (it does not panic); it returns an error if and only if the client
construction fails or the push action, called on the first two arguments, fails;
and when the push action fails with `e` the command returns `e` itself. -/
theorem no_error_swallowed (env : Env) (usageError : GoError) (o : registryPushOptions)
    (cfg : Configuration) (out : Writer) (args : List String)
    (h : pushArgs usageError args = none) :
    (∃ r, (execute env usageError o cfg out args).outcome = .returned r) ∧
    ((∃ e, (execute env usageError o cfg out args).outcome = .returned (some e)) ↔
      ((∃ e, env.NewClient o.cfg = .error e) ∨
        ∃ c e, env.NewClient o.cfg = .ok c ∧
          (env.Run (builtPush env o cfg out c) (args.getD 0 "") (args.getD 1 "")).err
            = some e)) ∧
    (∀ c e, env.NewClient o.cfg = .ok c →
      (env.Run (builtPush env o cfg out c) (args.getD 0 "") (args.getD 1 "")).err = some e →
      (execute env usageError o cfg out args).outcome = .returned (some e)) := by
  obtain ⟨a, b, rest, rfl⟩ := exists_two_of_length args ((pushArgs_none_iff _ _).1 h)
  simp only [execute, h, List.getD_cons_zero, List.getD_cons_succ]
  cases hc : env.NewClient o.cfg with
  | error e0 => simp [RunE_of_error env o cfg out _ e0 hc]
  | ok c =>
    simp only [RunE_of_ok env o cfg out a b rest c hc]
    refine ⟨⟨_, rfl⟩, ?_, ?_⟩
    · constructor
      · rintro ⟨e, he⟩
        exact Or.inr ⟨c, e, rfl, by simpa using he⟩
      · rintro (⟨e, he⟩ | ⟨c1, e, hc1, he⟩)
        · cases he
        · cases hc1
          exact ⟨e, by simp [he]⟩
    · intro c1 e hc1 he
      cases hc1
      simp [he]

/-- Witness for C4: a push to an unreachable registry, where the push action fails with `sampleTransportError` and the command returns it. -/
theorem no_error_swallowed_witness :
    pushArgs sampleUsageError ["mychart-1.2.0.tgz", "oci://down"] = none ∧
    (execute workingEnv sampleUsageError zeroOptions { RegistryClient := none } stdout
      ["mychart-1.2.0.tgz", "oci://down"]).outcome = .returned (some sampleTransportError) :=
  ⟨rfl, (no_error_swallowed workingEnv sampleUsageError zeroOptions { RegistryClient := none }
    stdout ["mychart-1.2.0.tgz", "oci://down"] rfl).2.2 sampleClient sampleTransportError
      rfl rfl⟩

/-- C5: when no option is supplied the registry configuration has insecureSkipTLSVerify = false, plainHTTP = false and certFile, keyFile, caFile, username and password empty; and when a single option is supplied and accepted, every field other than the one named by the option keeps its default, while the named field holds the supplied value. -/
theorem flag_defaults_and_frame :
    resolveConfiguration [] =
      .ok { CertFile := "", KeyFile := "", CaFile := "", InsecureSkipTLSverify := false,
            PlainHTTP := false, Username := "", Password := "" } ∧
    ∀ (name value : String) (cfg : RegistryConfiguration),
      resolveConfiguration [(name, value)] = .ok cfg →
      ((name ≠ "cert-file" → cfg.CertFile = "") ∧
        (name ≠ "key-file" → cfg.KeyFile = "") ∧
        (name ≠ "ca-file" → cfg.CaFile = "") ∧
        (name ≠ "insecure-skip-tls-verify" → cfg.InsecureSkipTLSverify = false) ∧
        (name ≠ "plain-http" → cfg.PlainHTTP = false) ∧
        (name ≠ "username" → cfg.Username = "") ∧
        (name ≠ "password" → cfg.Password = "")) ∧
      ((name = "cert-file" → cfg.CertFile = value) ∧
        (name = "key-file" → cfg.KeyFile = value) ∧
        (name = "ca-file" → cfg.CaFile = value) ∧
        (name = "insecure-skip-tls-verify" →
          ParseBool value = some cfg.InsecureSkipTLSverify) ∧
        (name = "plain-http" → ParseBool value = some cfg.PlainHTTP) ∧
        (name = "username" → cfg.Username = value) ∧
        (name = "password" → cfg.Password = value)) := by
  refine ⟨rfl, ?_⟩
  intro name value cfg h
  simp only [resolveConfiguration, parseFlags, newPushOptions_eq, setFlag_pushFlags] at h
  split_ifs at h with h1 h2 h3 h4 h5 h6 h7
  · subst h1
    simp only [Except.ok.injEq] at h
    subst h
    simp [setString, zeroOptions]
  · subst h2
    simp only [Except.ok.injEq] at h
    subst h
    simp [setString, zeroOptions]
  · subst h3
    simp only [Except.ok.injEq] at h
    subst h
    simp [setString, zeroOptions]
  · subst h4
    cases hb : ParseBool value with
    | none => simp [hb] at h
    | some b =>
      simp only [hb, Except.ok.injEq] at h
      subst h
      simp [setBool, zeroOptions]
  · subst h5
    cases hb : ParseBool value with
    | none => simp [hb] at h
    | some b =>
      simp only [hb, Except.ok.injEq] at h
      subst h
      simp [setBool, zeroOptions]
  · subst h6
    simp only [Except.ok.injEq] at h
    subst h
    simp [setString, zeroOptions]
  · subst h7
    simp only [Except.ok.injEq] at h
    subst h
    simp [setString, zeroOptions]

/-- Witness for C5: supplying `plain-http` with the value `true` sets only `PlainHTTP`. -/
theorem flag_defaults_and_frame_witness :
    resolveConfiguration [("plain-http", "true")] =
      .ok { CertFile := "", KeyFile := "", CaFile := "", InsecureSkipTLSverify := false,
            PlainHTTP := true, Username := "", Password := "" } ∧
    (⟨"", "", "", false, true, "", ""⟩ : RegistryConfiguration).CertFile = "" :=
  ⟨rfl, ((flag_defaults_and_frame.2 "plain-http" "true" _ rfl).1.1 (by decide))⟩

/-- C6 (as stated, it fails): an invocation with three positional arguments is
accepted by the argument validator and reaches the run step, where the push
action is invoked on the first two. -/
theorem three_arguments_accepted :
    ["mychart-1.2.0.tgz", "oci://registry.example.com/charts", "extra"].length ≠ 2 ∧
    pushArgs sampleUsageError
      ["mychart-1.2.0.tgz", "oci://registry.example.com/charts", "extra"] = none ∧
    (execute workingEnv sampleUsageError zeroOptions { RegistryClient := none } stdout
      ["mychart-1.2.0.tgz", "oci://registry.example.com/charts", "extra"]).outcome =
      .returned none ∧
    runCalls (execute workingEnv sampleUsageError zeroOptions { RegistryClient := none }
      stdout ["mychart-1.2.0.tgz", "oci://registry.example.com/charts", "extra"]).trace =
      [(builtPush workingEnv zeroOptions { RegistryClient := none } stdout sampleClient,
        "mychart-1.2.0.tgz", "oci://registry.example.com/charts")] := by
  refine ⟨by decide, by decide, by decide, by decide⟩

/-- C6 (amended): the push command requires at least two positional arguments:
every invocation with fewer than two is rejected by the argument validator and
never reaches the run step (nothing is executed and the validator's error is
returned), and an invocation is rejected only if it has fewer than two. -/
theorem fewer_than_two_arguments_rejected (env : Env) (usageError : GoError)
    (o : registryPushOptions) (cfg : Configuration) (out : Writer) (args : List String)
    (h : args.length < 2) :
    pushArgs usageError args = some usageError ∧
    execute env usageError o cfg out args =
      { cfg := cfg, trace := [], outcome := .returned (some usageError) } ∧
    (∀ other : List String, pushArgs usageError other ≠ none → other.length < 2) := by
  have hr : pushArgs usageError args = some usageError := by
    simp [pushArgs, MinimumNArgs, h]
  refine ⟨hr, by simp [execute, hr], ?_⟩
  intro other hne
  by_contra hlen
  exact hne ((pushArgs_none_iff usageError other).2 (by omega))

/-- Witness for C6 (amended) on a single argument. -/
theorem fewer_than_two_arguments_rejected_witness :
    ["mychart-1.2.0.tgz"].length < 2 ∧
    execute workingEnv sampleUsageError zeroOptions { RegistryClient := none } stdout
      ["mychart-1.2.0.tgz"] =
      { cfg := { RegistryClient := none }, trace := [],
        outcome := .returned (some sampleUsageError) } :=
  ⟨by decide, (fewer_than_two_arguments_rejected workingEnv sampleUsageError zeroOptions
    { RegistryClient := none } stdout ["mychart-1.2.0.tgz"] (by decide)).2.1⟩

/-- C7 (as stated, it fails): for the remote `ftp://h/x`, whose scheme `ftp` no provider declares (the orchestrator would fail with ProviderNotFound on it), and a Client Factory that fails, the command does not fail with ProviderNotFound: it returns the wrapped client construction error, whose kind is not ProviderNotFound. -/
theorem provider_not_found_not_first :
    schemeOf "ftp://h/x" = some "ftp" ∧ "ftp" ∉ ociProvider.Schemes ∧
    (orchestratorRun [ociProvider] sampleResolve
        (builtPush failingSpecEnv conflictingOptions { RegistryClient := none } stdout
          sampleClient) "mychart.tgz" "ftp://h/x").err =
      some (.errorString .ProviderNotFound "scheme not supported: ftp") ∧
    failingSpecEnv.NewClient conflictingOptions.cfg = .error sampleClientError ∧
    (execute failingSpecEnv sampleUsageError conflictingOptions { RegistryClient := none }
        stdout ["mychart.tgz", "ftp://h/x"]).outcome =
      .returned (some (.wrapError
        "missing registry client: open tls.crt: no such file or directory"
        sampleClientError)) ∧
    (GoError.wrapError "missing registry client: open tls.crt: no such file or directory"
        sampleClientError).kind ≠ .ProviderNotFound := by
  refine ⟨by decide, by decide, by decide, rfl, by decide, by decide⟩

/-- C7 (amended): for every remote destination whose scheme is declared by no registered provider, or that has no scheme: when the Client Factory succeeds the command fails with ProviderNotFound, performs no network I/O and writes nothing; the client is built before the scheme is resolved, so when the Client Factory fails with `e` the command returns the error wrapping `e`, without invoking the push action and without network I/O. -/
theorem provider_not_found_after_client (providers : List Provider)
    (resolve : String → Except GoError (List String))
    (newClient : RegistryConfiguration → Except GoError RegistryClient)
    (settings : EnvSettings) (usageError : GoError) (o : registryPushOptions)
    (cfg : Configuration) (out : Writer) (chartRef remote : String) (rest : List String)
    (h : ∀ scheme, schemeOf remote = some scheme → ∀ p ∈ providers, scheme ∉ p.Schemes) :
    (∀ c, newClient o.cfg = .ok c →
      ∃ e, (execute ⟨newClient, orchestratorRun providers resolve, settings⟩ usageError o cfg
            out (chartRef :: remote :: rest)).outcome = .returned (some e) ∧
        e.kind = .ProviderNotFound ∧
        transmissions (execute ⟨newClient, orchestratorRun providers resolve, settings⟩
          usageError o cfg out (chartRef :: remote :: rest)).trace = [] ∧
        commandWrites out (execute ⟨newClient, orchestratorRun providers resolve, settings⟩
          usageError o cfg out (chartRef :: remote :: rest)).trace = []) ∧
    (∀ e, newClient o.cfg = .error e →
      (execute ⟨newClient, orchestratorRun providers resolve, settings⟩ usageError o cfg
          out (chartRef :: remote :: rest)).outcome =
        .returned (some (Errorf_w "missing registry client: " e)) ∧
      runCalls (execute ⟨newClient, orchestratorRun providers resolve, settings⟩
        usageError o cfg out (chartRef :: remote :: rest)).trace = [] ∧
      transmissions (execute ⟨newClient, orchestratorRun providers resolve, settings⟩
        usageError o cfg out (chartRef :: remote :: rest)).trace = []) := by
  have hv : pushArgs usageError (chartRef :: remote :: rest) = none :=
    (pushArgs_none_iff _ _).2 (by simp)
  simp only [execute, hv]
  constructor
  · intro c hc
    rw [RunE_of_ok _ o cfg out chartRef remote rest c hc]
    obtain ⟨e, he, hk⟩ := orchestratorRun_unknown_scheme providers resolve
      (builtPush ⟨newClient, orchestratorRun providers resolve, settings⟩ o cfg out c)
      chartRef remote h
    refine ⟨e, ?_, hk, ?_, ?_⟩
    · simp [he]
    · simp [he, transmissions]
    · simp [he, commandWrites]
  · intro e he
    rw [RunE_of_error _ o cfg out _ e he]
    simp [runCalls, transmissions]

/-- Witness for C7 (amended) with the single provider `oci` and the remote `ftp://h/x`. -/
theorem provider_not_found_after_client_witness :
    (∀ scheme, schemeOf "ftp://h/x" = some scheme →
      ∀ p ∈ [ociProvider], scheme ∉ p.Schemes) ∧
    ∃ e, (execute ⟨fun _ => .ok sampleClient, orchestratorRun [ociProvider] sampleResolve,
            ⟨"settings"⟩⟩ sampleUsageError zeroOptions { RegistryClient := none } stdout
            ["mychart.tgz", "ftp://h/x"]).outcome = .returned (some e) ∧
      e.kind = .ProviderNotFound :=
  have h : ∀ scheme, schemeOf "ftp://h/x" = some scheme →
      ∀ p ∈ [ociProvider], scheme ∉ p.Schemes := by
    intro scheme hs p hp
    have h1 : schemeOf "ftp://h/x" = some "ftp" := by decide
    rw [h1] at hs
    cases hs
    simp only [List.mem_singleton] at hp
    subst hp
    decide
  ⟨h, by
    obtain ⟨e, h1, h2, _⟩ := (provider_not_found_after_client [ociProvider] sampleResolve
      (fun _ => .ok sampleClient) ⟨"settings"⟩ sampleUsageError zeroOptions
      { RegistryClient := none } stdout "mychart.tgz" "ftp://h/x" [] h).1 sampleClient rfl
    exact ⟨e, h1, h2⟩⟩

/-- C8: for every configuration in which plainHTTP is true and at least one of certFile, keyFile, caFile is non-empty, building the client fails with ConflictingTLSOptions, and the push command returns an error (wrapping it) without invoking the push action and without network I/O, for every argument list. -/
theorem conflicting_tls_options_fail
    (load : RegistryConfiguration → Except GoError RegistryClient)
    (run : Push → String → String → RunResult) (settings : EnvSettings)
    (usageError : GoError) (o : registryPushOptions) (cfg : Configuration) (out : Writer)
    (args : List String) (h1 : o.cfg.PlainHTTP = true)
    (h2 : o.cfg.CertFile ≠ "" ∨ o.cfg.KeyFile ≠ "" ∨ o.cfg.CaFile ≠ "") :
    (∃ e, buildClient load o.cfg = .error e ∧ e.kind = .ConflictingTLSOptions ∧
      (RunE ⟨buildClient load, run, settings⟩ o cfg out args).outcome =
        .returned (some (Errorf_w "missing registry client: " e))) ∧
    runCalls (RunE ⟨buildClient load, run, settings⟩ o cfg out args).trace = [] ∧
    transmissions (RunE ⟨buildClient load, run, settings⟩ o cfg out args).trace = [] ∧
    (∃ err, (execute ⟨buildClient load, run, settings⟩ usageError o cfg out args).outcome =
      .returned (some err)) ∧
    runCalls (execute ⟨buildClient load, run, settings⟩ usageError o cfg out args).trace
      = [] ∧
    transmissions (execute ⟨buildClient load, run, settings⟩ usageError o cfg out args).trace
      = [] := by
  have hb := buildClient_conflict load o.cfg h1 h2
  have hR := RunE_of_error ⟨buildClient load, run, settings⟩ o cfg out args _ hb
  refine ⟨⟨_, hb, rfl, by rw [hR]⟩, by simp [hR, runCalls], by simp [hR, transmissions], ?_⟩
  unfold execute
  cases pushArgs usageError args with
  | some err => simp [runCalls, transmissions]
  | none => simp [hR, runCalls, transmissions]

/-- Witness for C8 at `plain-http` combined with a certificate file. -/
theorem conflicting_tls_options_fail_witness :
    conflictingOptions.cfg.PlainHTTP = true ∧ conflictingOptions.cfg.CertFile ≠ "" ∧
    runCalls (RunE ⟨buildClient (fun _ => .ok sampleClient), sampleRun, ⟨"settings"⟩⟩
      conflictingOptions { RegistryClient := none } stdout
      ["mychart-1.2.0.tgz", "oci://registry.example.com/charts"]).trace = [] :=
  ⟨rfl, by decide, (conflicting_tls_options_fail (fun _ => .ok sampleClient) sampleRun
    ⟨"settings"⟩ sampleUsageError conflictingOptions { RegistryClient := none } stdout
    ["mychart-1.2.0.tgz", "oci://registry.example.com/charts"] rfl
    (Or.inl (by decide))).2.1⟩

/-- C9: for every sequence of registered providers, with exactly one argument typed the completion function returns the schemes of the providers in registry order, each provider's schemes in declared order, each followed by `://` (so the length is the sum of the scheme counts and every entry ends in `://`), with the directive NoFileComp|NoSpace (the value 6); with no argument typed it returns no candidates and the default directive. -/
theorem completion_candidates (All : EnvSettings → List Provider) (settings : EnvSettings)
    (noMoreArgsComp : List String × ShellCompDirective) (typed : String) :
    ValidArgsFunction All settings noMoreArgsComp [typed] =
      (((All settings).map
          (fun p => p.Schemes.map (fun scheme => scheme ++ "://"))).flatten,
        ShellCompDirectiveNoFileComp ||| ShellCompDirectiveNoSpace) ∧
    (ValidArgsFunction All settings noMoreArgsComp [typed]).1.length =
      ((All settings).map (fun p => p.Schemes.length)).sum ∧
    (∀ c ∈ (ValidArgsFunction All settings noMoreArgsComp [typed]).1,
      ∃ scheme, c = scheme ++ "://" ∧ List.IsSuffix [':', '/', '/'] c.toList) ∧
    ShellCompDirectiveNoFileComp ||| ShellCompDirectiveNoSpace = 6 ∧
    ValidArgsFunction All settings noMoreArgsComp [] = ([], ShellCompDirectiveDefault) := by
  have hv : ValidArgsFunction All settings noMoreArgsComp [typed] =
      (((All settings).map
          (fun p => p.Schemes.map (fun scheme => scheme ++ "://"))).flatten,
        ShellCompDirectiveNoFileComp ||| ShellCompDirectiveNoSpace) := by
    simp [ValidArgsFunction, schemeCompletions, schemeCompletions_from]
  refine ⟨hv, ?_, ?_, rfl, rfl⟩
  · rw [hv]
    simp [List.length_flatten, Function.comp_def]
  · rw [hv]
    intro c hc
    simp only [List.mem_flatten, List.mem_map] at hc
    obtain ⟨l, ⟨p, _, rfl⟩, hc⟩ := hc
    simp only [List.mem_map] at hc
    obtain ⟨scheme, _, rfl⟩ := hc
    exact ⟨scheme, rfl, scheme.toList, rfl⟩

/-- C10: for every argument list of length at least two, the validator accepts
it, both positional reads of the run step are in bounds (the run step does not
panic), and when the client is built the push action is invoked exactly once,
with the first argument as chart reference and the second as remote destination;
arguments after the second do not reach the push action. -/
theorem run_uses_first_two_arguments (env : Env) (usageError : GoError)
    (o : registryPushOptions) (cfg : Configuration) (out : Writer) (args : List String)
    (h : 2 ≤ args.length) :
    pushArgs usageError args = none ∧
    (∃ chartRef remote, args[0]? = some chartRef ∧ args[1]? = some remote) ∧
    (RunE env o cfg out args).outcome ≠ .panicked ∧
    (∀ c, env.NewClient o.cfg = .ok c →
      runCalls (RunE env o cfg out args).trace =
        [(builtPush env o cfg out c, args.getD 0 "", args.getD 1 "")]) ∧
    RunE env o cfg out args = RunE env o cfg out (args.take 2) := by
  refine ⟨(pushArgs_none_iff _ _).2 h, ?_⟩
  obtain ⟨a, b, rest, rfl⟩ := exists_two_of_length args h
  refine ⟨⟨a, b, by simp, by simp⟩, ?_, ?_, ?_⟩
  · cases hc : env.NewClient o.cfg with
    | error e0 => simp [RunE_of_error env o cfg out _ e0 hc]
    | ok c => simp [RunE_of_ok env o cfg out a b rest c hc]
  · intro c hc
    simp [RunE_of_ok env o cfg out a b rest c hc, runCalls_append, runCalls_effects,
      runCalls]
    cases (env.Run (builtPush env o cfg out c) a b).err <;> simp [runCalls]
  · cases hc : env.NewClient o.cfg with
    | error e0 =>
      simp [RunE_of_error env o cfg out _ e0 hc]
    | ok c =>
      simp [RunE_of_ok env o cfg out a b rest c hc, RunE_of_ok env o cfg out a b [] c hc]

/-- Witness for C10 on three arguments: the push action is called once, on the first two. -/
theorem run_uses_first_two_arguments_witness :
    2 ≤ ["mychart-1.2.0.tgz", "oci://registry.example.com/charts", "extra"].length ∧
    runCalls (RunE workingEnv zeroOptions { RegistryClient := none } stdout
      ["mychart-1.2.0.tgz", "oci://registry.example.com/charts", "extra"]).trace =
      [(builtPush workingEnv zeroOptions { RegistryClient := none } stdout sampleClient,
        "mychart-1.2.0.tgz", "oci://registry.example.com/charts")] :=
  ⟨by decide, (run_uses_first_two_arguments workingEnv sampleUsageError zeroOptions
    { RegistryClient := none } stdout
    ["mychart-1.2.0.tgz", "oci://registry.example.com/charts", "extra"] (by decide)).2.2.2.1
      sampleClient rfl⟩

end Helm
